import Mathlib

/-!
Verification of `pymolr`'s generation engine (`scripts/pymol_dump.py`) and the
dispatch entry point of `inst/extdata/pymol_xmlrpcserver.py`, via a shallow
embedding in Lean.  Python strings are modelled as Lean `String`s (lists of
characters); Python's mutable loops become folds; the `OrderedDict` used by
`docstring_sections` becomes an association list with in-place overwrite.
-/

namespace PymolDump

/-- Characters matched by Python's `str.lstrip()` / `str.strip()` and by the
regex class `\s` (ASCII, as in Python 2 without `re.UNICODE`). -/
def isPySpace (c : Char) : Bool :=
  c = ' ' || c = '\t' || c = '\n' || c = '\r' || c = Char.ofNat 11 || c = Char.ofNat 12

/-- Characters matched by the regex class `\w` in Python 2 (ASCII): letters,
digits and the underscore. -/
def isWordChar (c : Char) : Bool :=
  ('a' ≤ c && c ≤ 'z') || ('A' ≤ c && c ≤ 'Z') || ('0' ≤ c && c ≤ '9') || c = '_'

/-- Characters matched by the regex class `\d` (ASCII digits). -/
def isDigitChar (c : Char) : Bool :=
  '0' ≤ c && c ≤ '9'

/-- The literal left-brace character. -/
def lbrace : Char := Char.ofNat 123

/-- The literal right-brace character. -/
def rbrace : Char := Char.ofNat 125

/-- The backslash character. -/
def bslashC : Char := Char.ofNat 92

/-- The single-quote (apostrophe) character. -/
def aposC : Char := Char.ofNat 39

/-- Model of Python's `sep.join(xs)`: empty for `[]`, the single element for a
singleton, and the elements interleaved with `sep` otherwise. -/
def pyJoin (sep : String) : List String → String
  | [] => ""
  | s :: rest =>
    match rest with
    | [] => s
    | _ => s ++ sep ++ pyJoin sep rest

/-- Model of Python's `str.split(sep)` for a one-character separator, at the
character-list level: `"".split` gives `[""]`, and every occurrence of the
separator opens a new (possibly empty) part. -/
def splitCh (sep : Char) : List Char → List (List Char)
  | [] => [[]]
  | c :: rest =>
    if c = sep then [] :: splitCh sep rest
    else
      match splitCh sep rest with
      | [] => [[c]]
      | p :: ps => (c :: p) :: ps

/-- Model of Python's `str.split("\n\n")` (used for paragraph splitting):
non-overlapping left-to-right occurrences of two consecutive newlines
separate the parts. -/
def splitNlNl : List Char → List (List Char)
  | [] => [[]]
  | '\n' :: '\n' :: rest => [] :: splitNlNl rest
  | c :: rest =>
    match splitNlNl rest with
    | [] => [[c]]
    | p :: ps => (c :: p) :: ps

/-- Model of Python's `docstring.split("\n")`. -/
def splitLines (s : String) : List String :=
  (splitCh '\n' s.data).map (fun l => (⟨l⟩ : String))

/-- Model of Python's `str.lstrip()` (no argument: strip leading whitespace). -/
def lstrip (s : String) : String :=
  ⟨s.data.dropWhile isPySpace⟩

/-- Model of Python's `str.strip()` (strip whitespace at both ends). -/
def pyStrip (s : String) : String :=
  ⟨((s.data.dropWhile isPySpace).reverse.dropWhile isPySpace).reverse⟩

/-- Model of Python's `str.startswith("_")` as used throughout
`pymol_dump.py` (a one-character prefix test). -/
def startsU (s : String) : Bool :=
  s.data.head? == some '_'

/-- Prefix test on strings, modelling `re.match` against a fixed literal
pattern (which anchors at the start only). -/
def strIsPre (p s : String) : Bool :=
  p.data.isPrefixOf s.data

/-- Scanner for `escape_keywords` (source line 102-103):
`re.sub(r"\bfunction\b", ".function", str)`.  The scan walks the characters
left to right; `prevWord` records whether the previous original character was
a word character (so `\b` holds before position `i` iff `prevWord = false`,
since `f` is itself a word character).  The `fuel` argument starts at the
length of the character list and decreases by one on every step while the
list shrinks by at least one, so it never runs out; it makes the recursion
structural (on `Nat`) so that the definition reduces inside the kernel. -/
def escKwFuel : Nat → Bool → List Char → List Char
  | 0, _, _ => []
  | _ + 1, _, [] => []
  | fuel + 1, prevWord, c :: rest =>
    if (c :: rest).take 8 == "function".data
        && !prevWord
        && !(((c :: rest).drop 8).head?.any isWordChar) then
      '.' :: 'f' :: 'u' :: 'n' :: 'c' :: 't' :: 'i' :: 'o' :: 'n'
        :: escKwFuel fuel true ((c :: rest).drop 8)
    else
      c :: escKwFuel fuel (isWordChar c) rest

/-- Model of `escape_keywords` (source line 102-103): rewrite every
word-boundary-delimited occurrence of `function` to `.function`. -/
def escape_keywords (s : String) : String :=
  ⟨escKwFuel s.data.length false s.data⟩

/-- Scanner for `escape_quotes` (source line 106-107):
`re.sub(r"(?<!\\)'", r"\\'", string)` — every single quote not immediately
preceded by a backslash (in the original string) gets a backslash prefix.
`prevBS` records whether the previous original character was a backslash. -/
def escQuotesAux : Bool → List Char → List Char
  | _, [] => []
  | prevBS, c :: rest =>
    if c = aposC && !prevBS then bslashC :: c :: escQuotesAux false rest
    else c :: escQuotesAux (c = bslashC) rest

/-- Model of `escape_quotes` (source line 106-107). -/
def escape_quotes (s : String) : String :=
  ⟨escQuotesAux false s.data⟩

/-- Scanner for `escape_braces` (source line 110-111):
`re.sub(r"(?<!\\)([{}])", r"\\\1", string)` — every brace not immediately
preceded by a backslash gets a backslash prefix. -/
def escBracesAux : Bool → List Char → List Char
  | _, [] => []
  | prevBS, c :: rest =>
    if (c = lbrace || c = rbrace) && !prevBS then
      bslashC :: c :: escBracesAux false rest
    else c :: escBracesAux (c = bslashC) rest

/-- Model of `escape_braces` (source line 110-111). -/
def escape_braces (s : String) : String :=
  ⟨escBracesAux false s.data⟩

/-- Model of `escape_args_rd` (source line 114-121): replace the literal
`...` with the Rd spelling `\dots`, leave every other argument alone. -/
def escape_args_rd (args : List String) : List String :=
  args.map (fun arg => if arg = "..." then "\\dots" else arg)

/-- Model of `strip_blank` (source line 124-129): drop leading and trailing
empty lines (Python's falsiness of `""`). -/
def strip_blank (lines : List String) : List String :=
  ((lines.dropWhile (fun l => l = "")).reverse.dropWhile (fun l => l = "")).reverse

/-- Model of Python's `repr` on a command-name string: wrap in single quotes.
Command names in the PyMol keyword tables are plain identifiers, which is the
case in which `repr` adds quotes and performs no escaping. -/
def pyReprStr (s : String) : String :=
  ⟨aposC :: s.data ++ [aposC]⟩

/-- Python default values reachable from signature introspection, as consumed
by `to_r` (source line 257-268).  A scalar carries the string produced by the
source language's `repr` (the code uses that text verbatim); `pyNone` is the
`None` sentinel; lists and tuples are both `list`s here since `to_r` treats
them identically. -/
inductive PyVal where
  | list (xs : List PyVal)
  | dict (kvs : List (String × PyVal))
  | pyNone
  | scalar (s : String)

/-- Discriminator for the `else` branch of `to_r` (source line 267-268): a
value that is not a sequence, not a mapping and not the `None` sentinel. -/
def isScalar : PyVal → Bool
  | .scalar _ => true
  | _ => false

/-- The `repr` text carried by a scalar value (what the `else` branch of
`to_r` returns verbatim). -/
def scalarRepr : PyVal → String
  | .scalar s => s
  | _ => ""

mutual

/-- Model of `to_r` (source line 257-268): lists/tuples become `c(...)`,
dicts become `list(`k`=v, ...)`, `None` becomes `NULL`, and anything else is
its `repr` text. -/
def to_r : PyVal → String
  | .list xs => "c(" ++ pyJoin ", " (to_r_list xs) ++ ")"
  | .dict kvs => "list(" ++ pyJoin ", " (to_r_dict kvs) ++ ")"
  | .pyNone => "NULL"
  | .scalar s => s

/-- Elementwise conversion of a sequence's members (the list comprehension
`[to_r(x) for x in arg]` at source line 259). -/
def to_r_list : List PyVal → List String
  | [] => []
  | v :: vs => to_r v :: to_r_list vs

/-- Entrywise conversion of a dict's items (the comprehension building
backtick-quoted `` `name`=value `` pairs at source line 262-263). -/
def to_r_dict : List (String × PyVal) → List String
  | [] => []
  | (n, v) :: kvs => ("\x60" ++ n ++ "\x60=" ++ to_r v) :: to_r_dict kvs

end

/-- A docstring section (the namedtuple `Section` at source line 99): a
heading (`none` for text before any heading) and its body lines. -/
structure Section where
  heading : Option String
  lines : List String
deriving DecidableEq

/-- The heading test of `docstring_sections` (source line 147):
`re.match(r"^[^ ].*$", line)`.  On the newline-free lines produced by
`docstring.split("\n")` this regex matches exactly the non-empty lines whose
first character is not a space (note: `[^ ]` excludes only the space
character, so a tab-initial line does match). -/
def isHeading (line : String) : Bool :=
  match line.data with
  | [] => false
  | c :: _ => c != ' '

/-- Transformation applied to each body line (source line 155):
`escape_braces(line.lstrip())`. -/
def bodyLine (line : String) : String :=
  escape_braces (lstrip line)

/-- One iteration of the section-scanning loop of `docstring_sections`
(source lines 140-155): skip empty lines before the first section; open a new
section on a heading; otherwise append the transformed line to the most
recently opened section (opening an unnamed one if none exists yet). -/
def scanStep (sections : List Section) (line : String) : List Section :=
  if sections.isEmpty && line = "" then sections
  else if isHeading line then sections ++ [{ heading := some line, lines := [] }]
  else
    match sections.getLast? with
    | none => [{ heading := none, lines := [bodyLine line] }]
    | some s => sections.dropLast ++ [{ heading := s.heading, lines := s.lines ++ [bodyLine line] }]

/-- The section list accumulated by the loop of `docstring_sections` over the
given lines (source lines 138-155). -/
def scanSections (lines : List String) : List Section :=
  lines.foldl scanStep []

/-- Model of `OrderedDict.__setitem__`: overwrite the value in place when the
key is present (keeping its position), otherwise append a new entry. -/
def odInsert (d : List (Option String × List String)) (k : Option String)
    (v : List String) : List (Option String × List String) :=
  if d.any (fun p => p.1 == k) then d.map (fun p => if p.1 == k then (k, v) else p)
  else d ++ [(k, v)]

/-- Lookup in the ordered-dict model: the value of the first (and by
construction only) entry whose key matches. -/
def odLookup : List (Option String × List String) → Option String →
    Option (List String)
  | [], _ => none
  | p :: d, k => if p.1 == k then some p.2 else odLookup d k

/-- The dict-building loop of `docstring_sections` (source lines 158-160):
each scanned section is assigned into the ordered dict keyed by heading, so a
later section with the same heading overwrites an earlier one. -/
def buildDict (secs : List Section) : List (Option String × List String) :=
  secs.foldl (fun d s => odInsert d s.heading s.lines) []

/-- Model of `docstring_sections` (source lines 137-161). -/
def docstring_sections (docstring : String) : List (Option String × List String) :=
  buildDict (scanSections (splitLines docstring))

/-- The introspected pieces of a Python signature used by `build_r_args`
(the result of `inspect.getargspec`, source line 285): the ordered parameter
names, the tuple of default values attaching to the trailing parameters
(`[]` models `defaults is None`), and whether `*args` / `**kwargs` are
declared (`varargs is not None` / `keywords is not None`). -/
structure ArgSpec where
  args : List String
  defaults : List PyVal
  varargs : Bool
  keywords : Bool

/-- The `kwargs` comprehension of `build_r_args` (source lines 291-296):
pair the trailing parameters with their defaults by zipping the reversed
lists, drop underscore-prefixed names, and convert each default with `to_r`. -/
def kwargsOf (a : ArgSpec) : List (String × String) :=
  ((a.args.reverse.zip a.defaults.reverse).filter (fun p => !(startsU p.1))).map
    (fun p => (p.1, to_r p.2))

/-- Key membership in `kwargs` (the `arg in kwargs` / `arg not in kwargs`
tests at source lines 302 and 307). -/
def inKw (a : ArgSpec) (n : String) : Bool :=
  ((kwargsOf a).find? (fun p => p.1 == n)).isSome

/-- Value lookup `kwargs[name]` (source line 305); only evaluated under
`inKw`, so the default is irrelevant. -/
def kwLookup (a : ArgSpec) (n : String) : String :=
  (((kwargsOf a).find? (fun p => p.1 == n)).map (fun p => p.2)).getD ""

/-- The declaration parameter list `args_r` before the variadic catch-all
(source lines 301-307): non-underscore parameters without a default in
original order, then non-underscore parameters with a default rendered as
`name=literal` (with `escape_keywords` applied to the name). -/
def decl_args (a : ArgSpec) : List String :=
  (a.args.filter (fun arg => !(startsU arg) && !(inKw a arg)))
    ++ ((a.args.filter (fun n => !(startsU n) && inKw a n)).map
        (fun n => escape_keywords n ++ "=" ++ kwLookup a n))

/-- The call-argument list `call_args_r` before the variadic forwarding
expression (source lines 310-316): the quoted command name, then every
non-underscore parameter name passed through `escape_keywords`. -/
def call_args (cmd_name : String) (a : ArgSpec) : List String :=
  pyReprStr cmd_name :: (a.args.filter (fun n => !(startsU n))).map escape_keywords

/-- Model of `build_r_args` (source lines 283-323): build both lists and, if
the signature is variadic (positional or keyword), append the catch-all
`...` to the declaration list and the forwarding `list(...)` to the call
list. -/
def build_r_args (cmd_name : String) (a : ArgSpec) : List String × List String :=
  (if a.varargs || a.keywords then decl_args a ++ ["..."] else decl_args a,
   if a.varargs || a.keywords then call_args cmd_name a ++ ["list(...)"]
   else call_args cmd_name a)

/-- Matcher for the first entry of `ARG_REGEXES` (source lines 70-75):
`^(?P<arg>\w+)\s+=\s+(?P<type>\w+):\s(?P<desc>.*)$` with `re.DOTALL`.
Each quantified class is a maximal run (the pattern is deterministic: a
shorter run would put a character of the same class where the next literal
is required), so the regex is modelled by successive `takeWhile`/`dropWhile`
spans.  Returns the `arg` and `desc` groups. -/
def parse1 (p : String) : Option (String × String) :=
  let l := p.data
  let w1 := l.takeWhile isWordChar
  let r1 := l.dropWhile isWordChar
  if w1.isEmpty then none
  else
    let s1 := r1.takeWhile isPySpace
    let r2 := r1.dropWhile isPySpace
    if s1.isEmpty then none
    else
      match r2 with
      | '=' :: r3 =>
        let s2 := r3.takeWhile isPySpace
        let r4 := r3.dropWhile isPySpace
        if s2.isEmpty then none
        else
          let w2 := r4.takeWhile isWordChar
          let r5 := r4.dropWhile isWordChar
          if w2.isEmpty then none
          else
            match r5 with
            | ':' :: c :: r6 => if isPySpace c then some (⟨w1⟩, ⟨r6⟩) else none
            | _ => none
      | _ => none

/-- Matcher for the second entry of `ARG_REGEXES` (source lines 78-82):
`^(?P<arg>\w+)\s+=\s+(?P<desc>\S.*)$` with `re.DOTALL`. -/
def parse2 (p : String) : Option (String × String) :=
  let l := p.data
  let w1 := l.takeWhile isWordChar
  let r1 := l.dropWhile isWordChar
  if w1.isEmpty then none
  else
    let s1 := r1.takeWhile isPySpace
    let r2 := r1.dropWhile isPySpace
    if s1.isEmpty then none
    else
      match r2 with
      | '=' :: r3 =>
        let s2 := r3.takeWhile isPySpace
        let r4 := r3.dropWhile isPySpace
        if s2.isEmpty then none
        else
          match r4 with
          | c :: _ => if isPySpace c then none else some (⟨w1⟩, ⟨r4⟩)
          | [] => none
      | _ => none

/-- Matcher for the third entry of `ARG_REGEXES` (source lines 86-95):
`^(?P<arg>\w+)\s+(?P<range>[<>]\s+\d+):?\s+(?P<desc>\S.*)$` with
`re.DOTALL`. -/
def parse3 (p : String) : Option (String × String) :=
  let l := p.data
  let w1 := l.takeWhile isWordChar
  let r1 := l.dropWhile isWordChar
  if w1.isEmpty then none
  else
    let s1 := r1.takeWhile isPySpace
    let r2 := r1.dropWhile isPySpace
    if s1.isEmpty then none
    else
      match r2 with
      | op :: r3 =>
        if op = '<' || op = '>' then
          let s2 := r3.takeWhile isPySpace
          let r4 := r3.dropWhile isPySpace
          if s2.isEmpty then none
          else
            let d1 := r4.takeWhile isDigitChar
            let r5 := r4.dropWhile isDigitChar
            if d1.isEmpty then none
            else
              let r6 := match r5 with
                | ':' :: t => t
                | _ => r5
              let s3 := r6.takeWhile isPySpace
              let r7 := r6.dropWhile isPySpace
              if s3.isEmpty then none
              else
                match r7 with
                | c :: _ => if isPySpace c then none else some (⟨w1⟩, ⟨r7⟩)
                | [] => none
        else none
      | _ => none

/-- The first-match-wins loop over `ARG_REGEXES` (source lines 209-212). -/
def match_arg (p : String) : Option (String × String) :=
  match parse1 p with
  | some r => some r
  | none =>
    match parse2 p with
    | some r => some r
    | none => parse3 p

/-- The item built for one `ARGUMENTS` paragraph (source lines 214-223):
a named `\item` when a regex matched, the catch-all item otherwise. -/
def arg_item (p : String) : String :=
  match match_arg p with
  | none => "\\item\x7bExtra (from PyMol help text)\x7d\x7b" ++ p ++ "\x7d"
  | some r => "\\item\x7b" ++ r.1 ++ "\x7d\x7b" ++ r.2 ++ "\x7d"

/-- Paragraph splitting for the `ARGUMENTS` section (source line 207): join
the blank-stripped lines with newlines, then split on pairs of newlines. -/
def paragraphsOf (lines : List String) : List String :=
  (splitNlNl (pyJoin "\n" (strip_blank lines)).data).map (fun l => (⟨l⟩ : String))

/-- The itemized entries produced for an `ARGUMENTS` section: one per
paragraph (source lines 208-223). -/
def arguments_items (lines : List String) : List String :=
  (paragraphsOf lines).map arg_item

/-- The cross-reference tokens of a `SEE ALSO` section (source line 229):
`re.split(r",\s*", ", ".join(lines))`.  Splitting on `,\s*` is splitting on
each comma and then discarding the whitespace that follows it, i.e.
left-stripping every part after the first. -/
def seealso_tokens (lines : List String) : List String :=
  match (splitCh ',' (pyJoin ", " lines).data).map (fun l => (⟨l⟩ : String)) with
  | [] => []
  | p :: ps => p :: ps.map lstrip

/-- The `\seealso` items (source lines 229-234): one `\item` per non-empty
token. -/
def seealso_items (lines : List String) : List String :=
  (seealso_tokens lines).filterMap (fun c =>
    if c = "" then none
    else some ("\\item \\code\x7b\\link\x7bPymol$" ++ c ++ "\x7d\x7d"))

/-- Model of Python's `str.title()` (ASCII): a letter is uppercased when the
previous character is not a letter, lowercased otherwise. -/
def titleCaseAux : Bool → List Char → List Char
  | _, [] => []
  | prevAlpha, c :: rest =>
    let isA := ('a' ≤ c && c ≤ 'z') || ('A' ≤ c && c ≤ 'Z')
    let c' := if isA then (if prevAlpha then c.toLower else c.toUpper) else c
    c' :: titleCaseAux isA rest

/-- Model of `section.strip().title()` as used at source line 244. -/
def titleCase (s : String) : String :=
  ⟨titleCaseAux false s.data⟩

/-- The fixed ignore set `ignored_sections` (source lines 190-195): headings
matching (as a prefix, this is `re.match`) any of these patterns are
skipped. -/
def ignored_section (name : String) : Bool :=
  strIsPre "DESCRIPTION" name || strIsPre "USAGE" name
    || strIsPre "PYMOL API" name || strIsPre "EXAMPLE" name

/-- `DESCRIPTION_TEMPLATE` (source lines 45-49) after `.format`. -/
def description_template (d : String) : String :=
  "\\description\x7b\n" ++ d ++ "\n\x7d\n"

/-- `NOTE_TEMPLATE` (source lines 52-56) after `.format`. -/
def note_template (n : String) : String :=
  "\\note\x7b\n" ++ n ++ "\n\x7d\n"

/-- `USAGE_TEMPLATE` (source lines 37-42) after `.format`. -/
def usage_template (name args : String) : String :=
  "\\usage\x7b\npymol <- new(\"Pymol\")\npymol$" ++ name ++ "(" ++ args ++ ")\n\x7d\n"

/-- `R_METHOD_TEMPLATE` (source lines 20-24) after `.format`: the generated R
method body. -/
def r_method_template (args docstring call_args_s : String) : String :=
  "function(" ++ args ++ ") \x7b\n    \x27" ++ docstring
    ++ "\x27\n    .self$.rpc(" ++ call_args_s ++ ")\n\x7d"

/-- `DOCSTRING_TEMPLATE` (source lines 60-63) after `.format`: the method
docstring derived from a `DESCRIPTION` section plus a cross reference. -/
def docstring_template (description link : String) : String :=
  description ++ "\nSee: \\\\code\x7b\\\\link\x7b" ++ link ++ "\x7d\x7d.\n"

/-- One iteration of the section-rendering loop of `docstring_to_rd` (source
lines 196-246): skip blank sections, render `NOTES` / `ARGUMENTS` /
`SEE ALSO` specially, and render any other non-ignored section generically
(with `None` renamed to `Introduction`). -/
def rd_section (out : List String) (entry : Option String × List String) :
    List String :=
  let lines := entry.2
  if lines.isEmpty || (strip_blank lines).isEmpty then out
  else if entry.1 = some "NOTES" then
    out ++ [note_template (pyJoin "\n" (strip_blank lines))]
  else if entry.1 = some "ARGUMENTS" then
    out ++ ["\\arguments\x7b"] ++ arguments_items lines ++ ["\x7d"]
  else if entry.1 = some "SEE ALSO" then
    out ++ ["\\seealso\x7b", "\\itemize\x7b"] ++ seealso_items lines ++ ["\x7d", "\x7d"]
  else
    let name := match entry.1 with
      | none => "Introduction"
      | some s => s
    if ignored_section name then out
    else
      out ++ ["\\section\x7b" ++ titleCase (pyStrip name) ++ "\x7d\x7b"]
        ++ strip_blank lines ++ ["\x7d"]

/-- The list `out_rd` built by `docstring_to_rd` (source lines 167-246):
name, alias and title lines, the description block (or placeholder), the
usage block, then one rendering per docstring section in insertion order. -/
def docstring_to_rd_lines (cmd_name : String) (args_r : List String)
    (sections : List (Option String × List String)) : List String :=
  let head : List String :=
    ["\\name\x7b" ++ cmd_name ++ "\x7d",
     "\\alias\x7bPymol$" ++ cmd_name ++ "\x7d",
     "\\title\x7bExecute PyMol \x27" ++ cmd_name ++ "\x27 command\x7d"]
  let desc : String :=
    match odLookup sections (some "DESCRIPTION") with
    | some ls => description_template (pyJoin "\n" (strip_blank ls))
    | none => "\\description\x7bNot described by PyMol.\x7d"
  let usage : String :=
    usage_template cmd_name (pyJoin ", " (escape_args_rd args_r))
  sections.foldl rd_section (head ++ [desc] ++ [usage])

/-- Model of `docstring_to_rd` (source lines 167-247). -/
def docstring_to_rd (cmd_name : String) (args_r : List String)
    (sections : List (Option String × List String)) : String :=
  pyJoin "\n" (docstring_to_rd_lines cmd_name args_r sections)

/-- A command as enumerated by `dump_cmds`: its name, its introspected
signature, and its docstring (`none` models `__doc__ is None`). -/
structure Cmd where
  name : String
  spec : ArgSpec
  doc : Option String

/-- The per-command body of the `dump_cmds` loop (source lines 344-376):
build the two argument lists; choose the method docstring (the generic
one-liner, replaced by the `DESCRIPTION`-derived text when present); render
the method; and, exactly when a docstring is present, also produce the
reference document and its `man/` file name. -/
def process_cmd (c : Cmd) : String × Option (String × String) :=
  let args_r := (build_r_args c.name c.spec).1
  let call_args_r := (build_r_args c.name c.spec).2
  let base_doc := escape_quotes ("PyMol \x27" ++ c.name ++ "\x27 method")
  match c.doc with
  | none =>
    (c.name ++ "="
       ++ r_method_template (pyJoin ", " args_r) base_doc (pyJoin ", " call_args_r),
     none)
  | some d =>
    let doc_sections := docstring_sections d
    let method_docstring :=
      match odLookup doc_sections (some "DESCRIPTION") with
      | some ls =>
        docstring_template (escape_quotes (pyStrip (pyJoin "\n" ls)))
          ("Pymol$" ++ c.name)
      | none => base_doc
    (c.name ++ "="
       ++ r_method_template (pyJoin ", " args_r) method_docstring
            (pyJoin ", " call_args_r),
     some ("man/Pymol-method-" ++ c.name ++ ".Rd",
           docstring_to_rd c.name args_r doc_sections))

end PymolDump

namespace PymolServer

/-- The values travelling over the XML-RPC boundary in
`pymol_xmlrpcserver.py`: strings, integers, dicts (which `_dispatch` merges
into keyword arguments) and lists; `other` stands for any further
marshallable value, which `_dispatch` only passes through. -/
inductive RpcVal where
  | str (s : String)
  | int (n : Int)
  | dict (kvs : List (String × RpcVal))
  | list (xs : List RpcVal)
  | other

/-- A callable PyMol-side object: applying it to positional and keyword
arguments yields its result, with `none` modelling a Python `None` return. -/
structure PyFunc where
  call : List RpcVal → List (String × RpcVal) → Option RpcVal

/-- An attribute value found by the `hasattr`/`getattr` probes: either a
callable or some non-callable object. -/
inductive PyAttr where
  | callable (f : PyFunc)
  | notCallable

/-- The lookup environment of `PymolServer._dispatch` (source lines 35-45 of
`pymol_xmlrpcserver.py`): the command keyword table, the attribute namespace
of `pymol.cmd`, and the attributes of the two whitelisted modules `util` and
`preset`. -/
structure DispatchEnv where
  commandKeywords : String → Option PyFunc
  cmdAttr : String → Option PyAttr
  moduleAttr : String → String → Option PyAttr

/-- Model of Python's `dict.update` on a keyword-argument dict: each entry of
the incoming dict overwrites an existing key in place or is appended. -/
def kwUpdate (d : List (String × RpcVal)) (kvs : List (String × RpcVal)) :
    List (String × RpcVal) :=
  kvs.foldl (fun d p =>
    if d.any (fun q => q.1 == p.1) then
      d.map (fun q => if q.1 == p.1 then p else q)
    else d ++ [p]) d

/-- The parameter-splitting loop of `_dispatch` (source lines 26-32): dict
parameters are merged into the keyword-argument set in order, every other
parameter becomes a positional argument in order. -/
def splitParams (params : List RpcVal) : List RpcVal × List (String × RpcVal) :=
  params.foldl (fun acc p =>
    match p with
    | .dict kvs => (acc.1, kwUpdate acc.2 kvs)
    | _ => (acc.1 ++ [p], acc.2)) ([], [])

/-- The name-resolution chain of `_dispatch` (source lines 34-45), run only
when the method is not `"ping"`: the keyword table first, then the `cmd`
attribute namespace, then a dotted `preset.`/`util.` name (whose split must
yield exactly two parts, or the tuple unpacking at source line 43 raises). -/
def resolveMethod (env : DispatchEnv) (method : String) :
    Except String (Option PyAttr) :=
  match env.commandKeywords method with
  | some f => .ok (some (.callable f))
  | none =>
    match env.cmdAttr method with
    | some a => .ok (some a)
    | none =>
      if PymolDump.strIsPre "preset." method || PymolDump.strIsPre "util." method then
        match (PymolDump.splitCh '.' method.data).map (fun l => (⟨l⟩ : String)) with
        | [m, f] =>
          if m = "preset" || m = "util" then .ok (env.moduleAttr m f) else .ok none
        | _ => .error "too many values to unpack"
      else .ok none

/-- Model of `PymolServer._dispatch` (source lines 25-53): split the
parameters, answer `"pong"` immediately for `"ping"`, otherwise resolve the
method name, fail with the not-callable error when resolution does not yield
a callable, and otherwise invoke it, substituting `-1` for a `None` result. -/
def dispatch (env : DispatchEnv) (method : String) (params : List RpcVal) :
    Except String RpcVal :=
  let args := (splitParams params).1
  let kwargs := (splitParams params).2
  if method = "ping" then .ok (.str "pong")
  else
    match resolveMethod env method with
    | .error e => .error e
    | .ok r =>
      match r with
      | some (.callable f) =>
        .ok (match f.call args kwargs with
             | none => .int (-1)
             | some v => v)
      | _ => .error (method ++ " is not callable")

end PymolServer

namespace PymolDump

/-- C10: for every lookup environment and every parameter list, `_dispatch`
with method name `ping` answers the string `pong`.  The quantification over
the whole environment (keyword table, `cmd` attributes, module attributes,
and the behaviour of every callable) shows that no table is consulted and no
command is invoked; the special case precedes every resolution step. -/
theorem c10_ping_short_circuit :
    ∀ (env : PymolServer.DispatchEnv) (params : List PymolServer.RpcVal),
      PymolServer.dispatch env "ping" params
        = Except.ok (PymolServer.RpcVal.str "pong") := by
  intro env params
  simp [PymolServer.dispatch]

/-- C4 (confirmed): for the signature `(a, b=1, *rest)` of a command named
`cmdname` with no docstring, the declaration list is `["a", "b=1", "..."]`,
the call-argument list is `['cmdname', a, b, list(...)]` (quoted name first,
defaults stripped, one forwarding expression), and no reference document is
produced. -/
theorem c4_variadic_forwarding :
    build_r_args "cmdname"
        { args := ["a", "b"], defaults := [PyVal.scalar "1"], varargs := true,
          keywords := false }
      = (["a", "b=1", "..."], ["\x27cmdname\x27", "a", "b", "list(...)"])
    ∧ (process_cmd
        { name := "cmdname",
          spec := { args := ["a", "b"], defaults := [PyVal.scalar "1"],
                    varargs := true, keywords := false },
          doc := none }).2 = none := by
  exact ⟨by decide, rfl⟩

/-- C5 counterexample: a parameter named `function` with no default keeps its
unrewritten name in the declaration list, while the call-argument list holds
the rewritten `.function` — the rewriting is not applied consistently to
both lists, contradicting the claim. -/
theorem c5_counterexample :
    (build_r_args "c"
        { args := ["function"], defaults := [], varargs := false,
          keywords := false }).1 = ["function"]
    ∧ (build_r_args "c"
        { args := ["function"], defaults := [], varargs := false,
          keywords := false }).2 = ["\x27c\x27", ".function"]
    ∧ ("function" : String) ≠ ".function" := by
  exact ⟨by decide, by decide, by decide⟩

/-- C5 (amended): for every signature containing a parameter named
`function` (the reserved-word collision case), the call-argument list holds
the rewritten `.function`; the declaration list rewrites it only when the
parameter carries a default value (then the entry is `.function=<literal>`),
while without a default the declaration list keeps the colliding name
unchanged. -/
theorem c5_keyword_rewrite (cmd : String) (a : ArgSpec)
    (hmem : "function" ∈ a.args) :
    ".function" ∈ (build_r_args cmd a).2
    ∧ (inKw a "function" = false → "function" ∈ (build_r_args cmd a).1)
    ∧ (inKw a "function" = true →
        (".function=" ++ kwLookup a "function") ∈ (build_r_args cmd a).1) := by
  have hsnd : (build_r_args cmd a).2
      = if (a.varargs || a.keywords) = true then call_args cmd a ++ ["list(...)"]
        else call_args cmd a := rfl
  have hfst : (build_r_args cmd a).1
      = if (a.varargs || a.keywords) = true then decl_args a ++ ["..."]
        else decl_args a := rfl
  have hcall : ".function" ∈ call_args cmd a := by
    unfold call_args
    apply List.mem_cons_of_mem
    have hfil : "function" ∈ a.args.filter (fun n => !(startsU n)) :=
      List.mem_filter.mpr ⟨hmem, by decide⟩
    have hmap := List.mem_map_of_mem escape_keywords hfil
    rw [show escape_keywords "function" = ".function" by decide] at hmap
    exact hmap
  refine ⟨?_, ?_, ?_⟩
  · rw [hsnd]
    by_cases hv : (a.varargs || a.keywords) = true
    · rw [if_pos hv]
      exact List.mem_append_left _ hcall
    · rw [if_neg hv]
      exact hcall
  · intro hk
    have hdecl : "function" ∈ decl_args a := by
      unfold decl_args
      apply List.mem_append_left
      exact List.mem_filter.mpr ⟨hmem, by simp [hk, startsU]⟩
    rw [hfst]
    by_cases hv : (a.varargs || a.keywords) = true
    · rw [if_pos hv]
      exact List.mem_append_left _ hdecl
    · rw [if_neg hv]
      exact hdecl
  · intro hk
    have hdecl : (".function=" ++ kwLookup a "function") ∈ decl_args a := by
      unfold decl_args
      apply List.mem_append_right
      have hfil : "function" ∈ a.args.filter (fun n => !(startsU n) && inKw a n) :=
        List.mem_filter.mpr ⟨hmem, by simp [hk, startsU]⟩
      have hmap := List.mem_map_of_mem
        (fun n => escape_keywords n ++ "=" ++ kwLookup a n) hfil
      rw [show (".function=" : String) = escape_keywords "function" ++ "=" by decide]
      simpa using hmap
    rw [hfst]
    by_cases hv : (a.varargs || a.keywords) = true
    · rw [if_pos hv]
      exact List.mem_append_left _ hdecl
    · rw [if_neg hv]
      exact hdecl

/-- Witness for `c5_keyword_rewrite` on multi-parameter signatures: a
no-default colliding parameter among others stays unrewritten in the
declaration list while the call list rewrites it, and a defaulted colliding
parameter is rewritten in the declaration list. -/
theorem c5_keyword_rewrite_witness :
    ".function" ∈ (build_r_args "c"
        { args := ["a", "function", "b"], defaults := [PyVal.scalar "2"],
          varargs := false, keywords := false }).2
    ∧ "function" ∈ (build_r_args "c"
        { args := ["a", "function", "b"], defaults := [PyVal.scalar "2"],
          varargs := false, keywords := false }).1
    ∧ (".function=" ++ kwLookup
          { args := ["x", "function"], defaults := [PyVal.scalar "1"],
            varargs := false, keywords := false } "function")
        ∈ (build_r_args "d"
            { args := ["x", "function"], defaults := [PyVal.scalar "1"],
              varargs := false, keywords := false }).1 :=
  ⟨(c5_keyword_rewrite "c"
      { args := ["a", "function", "b"], defaults := [PyVal.scalar "2"],
        varargs := false, keywords := false } (by decide)).1,
   (c5_keyword_rewrite "c"
      { args := ["a", "function", "b"], defaults := [PyVal.scalar "2"],
        varargs := false, keywords := false } (by decide)).2.1 (by decide),
   (c5_keyword_rewrite "d"
      { args := ["x", "function"], defaults := [PyVal.scalar "1"],
        varargs := false, keywords := false } (by decide)).2.2 (by decide)⟩

/-- C2 counterexample: a concrete default value that is not a sequence, not
a mapping and not the none sentinel is converted by `to_r` without any
failure — it is silently rendered as its `repr` text, contradicting the
claimed conversion failure for such shapes. -/
theorem c2_counterexample :
    isScalar (PyVal.scalar "<pymol object at 0x01>") = true
    ∧ to_r (PyVal.scalar "<pymol object at 0x01>") = "<pymol object at 0x01>" := by
  exact ⟨rfl, rfl⟩

/-- C2 (amended): `to_r` is total; every default value that is not a
sequence, not a mapping and not the none sentinel is silently rendered as
its source-language `repr` text, so no conversion failure can arise and the
generation run is never aborted by `to_r`. -/
theorem c2_scalar_total (v : PyVal) (h : isScalar v = true) :
    to_r v = scalarRepr v := by
  cases v <;> simp_all [isScalar, scalarRepr, to_r]

/-- Witness for `c2_scalar_total` at a concrete scalar default. -/
theorem c2_scalar_total_witness :
    to_r (PyVal.scalar "123") = scalarRepr (PyVal.scalar "123") :=
  c2_scalar_total (PyVal.scalar "123") (by decide)

/-- C8 counterexample: a command whose docstring is present but empty still
gets a reference document (the code tests only `__doc__ is not None`),
contradicting the claimed "present and non-empty" condition. -/
theorem c8_counterexample :
    (process_cmd
        { name := "x",
          spec := { args := [], defaults := [], varargs := false,
                    keywords := false },
          doc := some "" }).2.isSome = true := by
  decide

/-- C8 (amended): a reference document is produced exactly when the
docstring is present (`is not None`), even when it is empty; when it is
missing this is not an error — the method is rendered with the generic
one-line summary and only reference-document emission is skipped. -/
theorem c8_refdoc_iff_doc_present :
    ∀ c : Cmd,
      ((process_cmd c).2.isSome = c.doc.isSome)
      ∧ (c.doc = none →
          (process_cmd c).1
            = c.name ++ "="
                ++ r_method_template (pyJoin ", " (build_r_args c.name c.spec).1)
                    (escape_quotes ("PyMol \x27" ++ c.name ++ "\x27 method"))
                    (pyJoin ", " (build_r_args c.name c.spec).2)) := by
  intro c
  obtain ⟨name, spec, doc⟩ := c
  cases doc <;> simp [process_cmd]

/-- Witness for `c8_refdoc_iff_doc_present` at a docstring-less command. -/
theorem c8_refdoc_iff_doc_present_witness :
    (process_cmd
        { name := "w",
          spec := { args := ["a"], defaults := [], varargs := false,
                    keywords := false },
          doc := none }).1
      = "w" ++ "="
          ++ r_method_template
              (pyJoin ", "
                (build_r_args "w"
                  { args := ["a"], defaults := [], varargs := false,
                    keywords := false }).1)
              (escape_quotes ("PyMol \x27" ++ "w" ++ "\x27 method"))
              (pyJoin ", "
                (build_r_args "w"
                  { args := ["a"], defaults := [], varargs := false,
                    keywords := false }).2) :=
  (c8_refdoc_iff_doc_present
    { name := "w",
      spec := { args := ["a"], defaults := [], varargs := false,
                keywords := false },
      doc := none }).2 rfl

/-- C9 counterexample: a paragraph matching no pattern yields the fallback
item named by the literal `Extra (from PyMol help text)`, which differs from
an item named by the literal `Extra` as the claim states. -/
theorem c9_counterexample :
    arg_item "just some text"
      = "\\item\x7bExtra (from PyMol help text)\x7d\x7bjust some text\x7d"
    ∧ arg_item "just some text" ≠ "\\item\x7bExtra\x7d\x7bjust some text\x7d" := by
  exact ⟨by decide, by decide⟩

/-- C9 (amended): each paragraph of a non-empty ARGUMENTS section yields
exactly one itemized entry; the paragraph `x = int: the x value` yields the
entry named `x` with body `the x value`; a paragraph matching no pattern
yields, without error, one fallback entry named by the literal
`Extra (from PyMol help text)` carrying the whole paragraph. -/
theorem c9_arguments_items :
    (∀ lines : List String,
      (arguments_items lines).length = (paragraphsOf lines).length)
    ∧ arg_item "x = int: the x value" = "\\item\x7bx\x7d\x7bthe x value\x7d"
    ∧ (∀ p : String, match_arg p = none →
        arg_item p = "\\item\x7bExtra (from PyMol help text)\x7d\x7b" ++ p ++ "\x7d")
    ∧ "\\item\x7bx\x7d\x7bthe x value\x7d"
        ∈ docstring_to_rd_lines "cmd" ["a"]
            [(some "ARGUMENTS", ["x = int: the x value"])] := by
  refine ⟨?_, by decide, ?_, by decide⟩
  · intro lines
    simp [arguments_items]
  · intro p h
    simp [arg_item, h]

/-- Witness for `c9_arguments_items` on a paragraph with no matching
pattern. -/
theorem c9_arguments_items_witness :
    arg_item "plain text paragraph"
      = "\\item\x7bExtra (from PyMol help text)\x7d\x7b" ++ "plain text paragraph"
          ++ "\x7d" :=
  c9_arguments_items.2.2.1 "plain text paragraph" (by decide)

/-- C7 counterexample: the line consisting of a tab and `x` is non-empty,
its first character is whitespace, and yet `docstring_sections` classifies
it as a heading — it opens a new section (keyed by the tab-initial text) and
contributes no body line to the preceding `HEAD` section. -/
theorem c7_counterexample :
    isHeading "\tx" = true
    ∧ ("\tx" : String) ≠ ""
    ∧ Char.isWhitespace '\t' = true
    ∧ odLookup (docstring_sections "HEAD\n\tx") (some "\tx") = some []
    ∧ odLookup (docstring_sections "HEAD\n\tx") (some "HEAD") = some [] := by
  exact ⟨by decide, by decide, by decide, by decide, by decide⟩

/-- A line is a heading for `docstring_sections` exactly when it is
non-empty and its first character is not the space character (the regex
`^[^ ].*$` excludes only the space, so tab-initial lines are headings). -/
theorem isHeading_iff (line : String) :
    isHeading line = true ↔ (line ≠ "" ∧ line.data.head? ≠ some ' ') := by
  rcases hl : line.data with _ | ⟨c, rest⟩
  · have : line = "" := by
      cases line
      simp_all
    simp [isHeading, hl, this]
  · have hne : line ≠ "" := by
      intro h
      rw [h] at hl
      simp at hl
    simp [isHeading, hl, hne]

/-- C7 (amended): a line is classified as a heading iff it is non-empty and
its first character is not a space (so tab-initial lines are headings, not
body lines); a heading line opens a new section, while a non-heading line is
appended — left-stripped and brace-escaped — to the current section. -/
theorem c7_heading_classification :
    ∀ line : String,
      (isHeading line = true ↔ (line ≠ "" ∧ line.data.head? ≠ some ' '))
      ∧ (isHeading line = true →
          scanSections ["HEAD", line]
            = [{ heading := some "HEAD", lines := [] },
               { heading := some line, lines := [] }])
      ∧ (isHeading line = false →
          scanSections ["HEAD", line]
            = [{ heading := some "HEAD", lines := [bodyLine line] }]) := by
  intro line
  have hstep : scanStep [] "HEAD" = [{ heading := some "HEAD", lines := [] }] := by
    decide
  have hfold : ∀ l : String,
      scanSections ["HEAD", l] = scanStep (scanStep [] "HEAD") l := by
    intro l
    rfl
  refine ⟨isHeading_iff line, ?_, ?_⟩
  · intro h
    rw [hfold, hstep]
    simp [scanStep, h]
  · intro h
    rw [hfold, hstep]
    simp [scanStep, h]

/-- Witness for `c7_heading_classification`: the tab-initial line `\tx`
satisfies the heading test and opens its own section. -/
theorem c7_heading_classification_witness :
    scanSections ["HEAD", "\tx"]
      = [{ heading := some "HEAD", lines := [] },
         { heading := some "\tx", lines := [] }] :=
  (c7_heading_classification "\tx").2.1 (by decide)

/-- Looking up the key just assigned by the ordered-dict insert returns the
assigned value. -/
theorem odLookup_odInsert_self (d : List (Option String × List String))
    (k : Option String) (v : List String) :
    odLookup (odInsert d k v) k = some v := by
  unfold odInsert
  by_cases h : d.any (fun p => p.1 == k) = true
  · rw [if_pos h]
    induction d with
    | nil => simp at h
    | cons p d ih =>
      by_cases hp : (p.1 == k) = true
      · rw [List.map_cons, if_pos hp]
        simp [odLookup]
      · have hd : d.any (fun q => q.1 == k) = true := by
          simpa [hp] using h
        rw [List.map_cons, if_neg hp]
        simp only [odLookup]
        rw [if_neg hp]
        exact ih hd
  · rw [if_neg h]
    induction d with
    | nil => simp [odLookup]
    | cons p d ih =>
      have hp : ¬(p.1 == k) = true := by
        intro hk
        exact h (by simp [hk])
      have hd : ¬d.any (fun q => q.1 == k) = true := by
        intro hk
        exact h (by simp [List.any_cons, hk])
      rw [List.cons_append]
      simp only [odLookup]
      rw [if_neg hp]
      exact ih hd

/-- Insertion at one key leaves lookups at a different key unchanged. -/
theorem odLookup_odInsert_ne (d : List (Option String × List String))
    (k k' : Option String) (v : List String) (h : k' ≠ k) :
    odLookup (odInsert d k v) k' = odLookup d k' := by
  have hk : ¬((k : Option String) == k') = true := by
    simp only [beq_iff_eq]
    exact fun hkk => h hkk.symm
  unfold odInsert
  by_cases ha : d.any (fun p => p.1 == k) = true
  · rw [if_pos ha]
    clear ha
    induction d with
    | nil => simp
    | cons p d ih =>
      by_cases hp : (p.1 == k) = true
      · have hp' : p.1 = k := by simpa using hp
        have hpk : ¬(p.1 == k') = true := by
          rw [hp']
          exact hk
        rw [List.map_cons, if_pos hp]
        simp only [odLookup]
        rw [if_neg hk, if_neg hpk]
        exact ih
      · rw [List.map_cons, if_neg hp]
        simp only [odLookup]
        by_cases hq : (p.1 == k') = true
        · rw [if_pos hq, if_pos hq]
        · rw [if_neg hq, if_neg hq]
          exact ih
  · rw [if_neg ha]
    induction d with
    | nil =>
      simp only [List.nil_append, odLookup]
      rw [if_neg hk]
    | cons p d ih =>
      rw [List.cons_append]
      simp only [odLookup]
      by_cases hq : (p.1 == k') = true
      · rw [if_pos hq, if_pos hq]
      · rw [if_neg hq, if_neg hq]
        exact ih (by
          intro hk2
          exact ha (by simp [List.any_cons, hk2]))

/-- Folding the ordered-dict assignment over a section list and then looking
up a heading returns the lines of the last section with that heading, or
falls back to the initial dict. -/
theorem buildDict_lookup (secs : List Section)
    (d : List (Option String × List String)) (k : Option String) :
    odLookup (secs.foldl (fun d s => odInsert d s.heading s.lines) d) k
      = (Option.map Section.lines
          ((secs.reverse).find? (fun s => s.heading == k))).or (odLookup d k) := by
  induction secs generalizing d with
  | nil => simp
  | cons s secs ih =>
    rw [List.foldl_cons, ih, List.reverse_cons, List.find?_append]
    cases hf : secs.reverse.find? (fun s => s.heading == k) with
    | some x => simp
    | none =>
      have hsing : List.find? (fun s => s.heading == k) [s]
          = if s.heading == k then some s else none := by
        simp [List.find?_singleton]
      rw [hsing]
      by_cases hk : (s.heading == k) = true
      · rw [if_pos hk]
        have hk' : s.heading = k := by simpa using hk
        subst hk'
        rw [odLookup_odInsert_self]
        simp
      · rw [if_neg hk]
        rw [odLookup_odInsert_ne]
        · simp
        · intro hkk
          exact (by simpa using hk : ¬s.heading = k) hkk.symm

/-- C1 (confirmed): for every docstring and every heading, the parsed result
maps the heading to the body lines of the last scanned section carrying that
heading (later occurrences overwrite earlier ones); in particular a
docstring with two `NOTES` occurrences yields the second occurrence's lines
under `NOTES`. -/
theorem c1_duplicate_heading_last_wins :
    (∀ (d : String) (h : Option String),
      odLookup (docstring_sections d) h
        = Option.map Section.lines
            (((scanSections (splitLines d)).reverse).find?
              (fun s => s.heading == h)))
    ∧ odLookup (docstring_sections "NOTES\n first\nNOTES\n second")
        (some "NOTES") = some ["second"] := by
  constructor
  · intro d h
    have hb := buildDict_lookup (scanSections (splitLines d)) [] h
    have hempty : odLookup [] h = none := rfl
    rw [hempty, Option.or_none] at hb
    exact hb
  · decide

/-- The string produced by `(a ++ b).data` is the concatenation of the two
character lists. -/
theorem strData_append (a b : String) : (a ++ b).data = a.data ++ b.data :=
  rfl

/-- The keyword scanner never turns a first character that is not an
underscore into one: its output is empty, starts with the input's first
character, or starts with the inserted dot. -/
theorem escKwFuel_head_ne (n : Nat) (b : Bool) (l : List Char)
    (h : l.head? ≠ some '_') : (escKwFuel n b l).head? ≠ some '_' := by
  cases n with
  | zero => simp [escKwFuel]
  | succ m =>
    cases l with
    | nil => simp [escKwFuel]
    | cons c rest =>
      rw [escKwFuel]
      split
      · simp
      · simpa using h

/-- The keyword scanner keeps an underscore first character: no replacement
can begin at an underscore (the pattern starts with `f`). -/
theorem escKwFuel_head_underscore (n : Nat) (b : Bool) (l : List Char)
    (hl : l.head? = some '_') (hn : n ≠ 0) :
    (escKwFuel n b l).head? = some '_' := by
  cases n with
  | zero => exact absurd rfl hn
  | succ m =>
    cases l with
    | nil => simp at hl
    | cons c rest =>
      have hc : c = '_' := by simpa using hl
      subst hc
      rw [escKwFuel]
      split
      · rename_i hcond
        have htake : (('_' :: rest).take 8 == "function".data) = true :=
          (Bool.and_eq_true_iff.mp (Bool.and_eq_true_iff.mp hcond).1).1
        simp at htake
      · simp

/-- An underscore-headed string keeps its underscore head through
`escape_keywords`. -/
theorem escape_keywords_head_underscore (p : String)
    (hp : p.data.head? = some '_') :
    (escape_keywords p).data.head? = some '_' := by
  unfold escape_keywords
  have hne : p.data ≠ [] := by
    intro h
    rw [h] at hp
    simp at hp
  have hlen : p.data.length ≠ 0 := by
    intro h0
    exact hne (List.length_eq_zero.mp h0)
  exact escKwFuel_head_underscore _ false p.data hp hlen

/-- Negation of `startsU` gives the head fact. -/
theorem head_ne_of_not_startsU (s : String) (h : startsU s = false) :
    s.data.head? ≠ some '_' := by
  simpa [startsU] using h

/-- Every element of `decl_args` has a first character other than the
underscore: plain entries come from the non-underscore filter, defaulted
entries start with the keyword-escaped name (or the `=` sign), and neither
begins with an underscore. -/
theorem decl_args_head (a : ArgSpec) (e : String) (he : e ∈ decl_args a) :
    e.data.head? ≠ some '_' := by
  unfold decl_args at he
  rcases List.mem_append.mp he with h1 | h2
  · have := (List.mem_filter.mp h1).2
    have hs : startsU e = false := by
      rcases Bool.and_eq_true_iff.mp this with ⟨hne, _⟩
      simpa using hne
    exact head_ne_of_not_startsU e hs
  · rcases List.mem_map.mp h2 with ⟨n, hn, rfl⟩
    have := (List.mem_filter.mp hn).2
    have hs : startsU n = false := by
      rcases Bool.and_eq_true_iff.mp this with ⟨hne, _⟩
      simpa using hne
    have hescn : (escape_keywords n).data.head? ≠ some '_' := by
      unfold escape_keywords
      exact escKwFuel_head_ne _ false n.data (head_ne_of_not_startsU n hs)
    rw [strData_append, strData_append]
    cases hc : (escape_keywords n).data with
    | nil => simp
    | cons c cs =>
      rw [hc] at hescn
      simpa using hescn

/-- Every element of `call_args` has a first character other than the
underscore: the quoted command name starts with a quote, and parameter
entries are keyword-escaped non-underscore names. -/
theorem call_args_head (cmd : String) (a : ArgSpec) (e : String)
    (he : e ∈ call_args cmd a) : e.data.head? ≠ some '_' := by
  unfold call_args at he
  rcases List.mem_cons.mp he with h1 | h2
  · subst h1
    simp [pyReprStr, aposC]
  · rcases List.mem_map.mp h2 with ⟨n, hn, rfl⟩
    have := (List.mem_filter.mp hn).2
    have hs : startsU n = false := by simpa using this
    unfold escape_keywords
    exact escKwFuel_head_ne _ false n.data (head_ne_of_not_startsU n hs)

/-- Every element of either list built by `build_r_args` has a first
character other than the underscore. -/
theorem build_r_args_head (cmd : String) (a : ArgSpec) (e : String)
    (he : e ∈ (build_r_args cmd a).1 ∨ e ∈ (build_r_args cmd a).2) :
    e.data.head? ≠ some '_' := by
  have hfst : (build_r_args cmd a).1
      = if (a.varargs || a.keywords) = true then decl_args a ++ ["..."]
        else decl_args a := rfl
  have hsnd : (build_r_args cmd a).2
      = if (a.varargs || a.keywords) = true then call_args cmd a ++ ["list(...)"]
        else call_args cmd a := rfl
  rcases he with h1 | h2
  · rw [hfst] at h1
    by_cases hv : (a.varargs || a.keywords) = true
    · rw [if_pos hv] at h1
      rcases List.mem_append.mp h1 with hm | hm
      · exact decl_args_head a e hm
      · have : e = "..." := by simpa using hm
        subst this
        decide
    · rw [if_neg hv] at h1
      exact decl_args_head a e h1
  · rw [hsnd] at h2
    by_cases hv : (a.varargs || a.keywords) = true
    · rw [if_pos hv] at h2
      rcases List.mem_append.mp h2 with hm | hm
      · exact call_args_head cmd a e hm
      · have : e = "list(...)" := by simpa using hm
        subst this
        decide
    · rw [if_neg hv] at h2
      exact call_args_head cmd a e h2

/-- C3 (confirmed): a parameter whose name starts with the underscore
sentinel is absent from both lists under every rendering — as the bare name,
as the keyword-escaped name, and as a defaulted `name=value` entry (escaped
or not), for any default literal `s`. -/
theorem c3_internal_excluded (cmd : String) (a : ArgSpec) (p s : String)
    (hp : startsU p = true) :
    p ∉ (build_r_args cmd a).1 ∧ p ∉ (build_r_args cmd a).2
    ∧ escape_keywords p ∉ (build_r_args cmd a).1
    ∧ escape_keywords p ∉ (build_r_args cmd a).2
    ∧ (p ++ "=" ++ s) ∉ (build_r_args cmd a).1
    ∧ (escape_keywords p ++ "=" ++ s) ∉ (build_r_args cmd a).1 := by
  have hph : p.data.head? = some '_' := by simpa [startsU] using hp
  have hesc : (escape_keywords p).data.head? = some '_' :=
    escape_keywords_head_underscore p hph
  have happ : ∀ q r : String, q.data.head? = some '_' →
      (q ++ "=" ++ r).data.head? = some '_' := by
    intro q r hq
    rw [strData_append, strData_append]
    cases hc : q.data with
    | nil => rw [hc] at hq; simp at hq
    | cons c cs =>
      rw [hc] at hq
      simpa using hq
  refine ⟨?_, ?_, ?_, ?_, ?_, ?_⟩
  · intro hm
    exact build_r_args_head cmd a p (Or.inl hm) hph
  · intro hm
    exact build_r_args_head cmd a p (Or.inr hm) hph
  · intro hm
    exact build_r_args_head cmd a _ (Or.inl hm) hesc
  · intro hm
    exact build_r_args_head cmd a _ (Or.inr hm) hesc
  · intro hm
    exact build_r_args_head cmd a _ (Or.inl hm) (happ p s hph)
  · intro hm
    exact build_r_args_head cmd a _ (Or.inl hm) (happ (escape_keywords p) s hesc)

/-- Witness for `c3_internal_excluded` on a concrete signature holding the
internal parameter `_x`. -/
theorem c3_internal_excluded_witness :
    "_x" ∉ (build_r_args "c"
        { args := ["_x", "a"], defaults := [], varargs := false,
          keywords := false }).1
    ∧ "_x" ∉ (build_r_args "c"
        { args := ["_x", "a"], defaults := [], varargs := false,
          keywords := false }).2
    ∧ escape_keywords "_x" ∉ (build_r_args "c"
        { args := ["_x", "a"], defaults := [], varargs := false,
          keywords := false }).1
    ∧ escape_keywords "_x" ∉ (build_r_args "c"
        { args := ["_x", "a"], defaults := [], varargs := false,
          keywords := false }).2
    ∧ ("_x" ++ "=" ++ "1") ∉ (build_r_args "c"
        { args := ["_x", "a"], defaults := [], varargs := false,
          keywords := false }).1
    ∧ (escape_keywords "_x" ++ "=" ++ "1") ∉ (build_r_args "c"
        { args := ["_x", "a"], defaults := [], varargs := false,
          keywords := false }).1 :=
  c3_internal_excluded "c"
    { args := ["_x", "a"], defaults := [], varargs := false, keywords := false }
    "_x" "1" (by decide)

/-- Splitting never yields an empty part list. -/
theorem splitCh_ne_nil (sep : Char) (l : List Char) : splitCh sep l ≠ [] := by
  induction l with
  | nil => simp [splitCh]
  | cons c rest ih =>
    simp only [splitCh]
    by_cases hc : c = sep
    · rw [if_pos hc]
      simp
    · rw [if_neg hc]
      cases h : splitCh sep rest with
      | nil => simp
      | cons p ps => simp

/-- The number of parts produced by splitting is one more than the number of
separator occurrences. -/
theorem splitCh_length (sep : Char) (l : List Char) :
    (splitCh sep l).length = l.count sep + 1 := by
  induction l with
  | nil => simp [splitCh]
  | cons c rest ih =>
    simp only [splitCh]
    by_cases hc : c = sep
    · rw [if_pos hc]
      subst hc
      simp [ih]
    · rw [if_neg hc]
      cases h : splitCh sep rest with
      | nil => exact absurd h (splitCh_ne_nil sep rest)
      | cons p ps =>
        rw [h] at ih
        simp only [List.length_cons] at ih ⊢
        rw [List.count_cons_of_ne (fun he => hc he.symm)]
        exact ih

/-- Joining comma-free strings with `", "` produces one comma fewer than the
number of strings. -/
theorem count_pyJoin_comma (xs : List String)
    (h : ∀ s ∈ xs, ',' ∉ s.data) :
    ((pyJoin ", " xs).data).count ',' = xs.length - 1 := by
  induction xs with
  | nil => simp [pyJoin]
  | cons s rest ih =>
    cases rest with
    | nil =>
      simp only [pyJoin, List.length_cons, List.length_nil]
      have : ',' ∉ s.data := h s (by simp)
      simp [List.count_eq_zero_of_not_mem this]
    | cons t ts =>
      have hs : ',' ∉ s.data := h s (by simp)
      have hrest : ∀ u ∈ t :: ts, ',' ∉ u.data := by
        intro u hu
        exact h u (by simp [hu])
      have ihr := ih hrest
      have hstep : pyJoin ", " (s :: t :: ts) = s ++ ", " ++ pyJoin ", " (t :: ts) :=
        rfl
      rw [hstep]
      rw [strData_append, strData_append]
      rw [List.count_append, List.count_append]
      rw [List.count_eq_zero_of_not_mem hs, ihr]
      have hsep : ((", " : String).data).count ',' = 1 := by decide
      rw [hsep]
      simp [Nat.succ_sub_one]
      omega

/-- Converting a list of scalars element by element returns their repr
texts. -/
theorem to_r_list_scalars (xs : List String) :
    to_r_list (xs.map PyVal.scalar) = xs := by
  induction xs with
  | nil => rfl
  | cons s rest ih => simp [to_r_list, to_r, ih]

/-- Elementwise conversion preserves the number of sequence elements. -/
theorem to_r_list_length (xs : List PyVal) :
    (to_r_list xs).length = xs.length := by
  induction xs with
  | nil => rfl
  | cons v vs ih => simp [to_r_list, ih]

/-- Entrywise conversion preserves the number of mapping keys. -/
theorem to_r_dict_length (kvs : List (String × PyVal)) :
    (to_r_dict kvs).length = kvs.length := by
  induction kvs with
  | nil => rfl
  | cons kv rest ih =>
    obtain ⟨n, v⟩ := kv
    simp [to_r_dict, ih]

/-- C6 (confirmed): `to_r` sends a sequence to a `c(...)` vector literal
over the recursively converted elements (comma-joined, one part per
element — for comma-free scalar elements the literal has exactly `N`
comma-separated parts), a mapping to a `list(...)` literal with one
backtick-quoted entry per key, and the none sentinel to `NULL`; the nested
default `{"k": [1, 2]}` converts to ``list(`k`=c(1, 2))``. -/
theorem c6_value_conversion :
    (∀ xs : List String, xs ≠ [] → (∀ s ∈ xs, ',' ∉ s.data) →
      (splitCh ',' (to_r (PyVal.list (xs.map PyVal.scalar))).data).length
        = xs.length)
    ∧ (∀ xs : List PyVal,
        to_r (PyVal.list xs) = "c(" ++ pyJoin ", " (to_r_list xs) ++ ")"
        ∧ (to_r_list xs).length = xs.length)
    ∧ (∀ kvs : List (String × PyVal),
        to_r (PyVal.dict kvs) = "list(" ++ pyJoin ", " (to_r_dict kvs) ++ ")"
        ∧ (to_r_dict kvs).length = kvs.length)
    ∧ to_r PyVal.pyNone = "NULL"
    ∧ to_r (PyVal.dict [("k", PyVal.list [PyVal.scalar "1", PyVal.scalar "2"])])
        = "list(\x60k\x60=c(1, 2))" := by
  refine ⟨?_, ?_, ?_, rfl, by decide⟩
  · intro xs hne h
    have hconv : to_r (PyVal.list (xs.map PyVal.scalar))
        = "c(" ++ pyJoin ", " xs ++ ")" := by
      rw [show to_r (PyVal.list (xs.map PyVal.scalar))
          = "c(" ++ pyJoin ", " (to_r_list (xs.map PyVal.scalar)) ++ ")" from rfl,
        to_r_list_scalars]
    rw [hconv, splitCh_length]
    rw [strData_append, strData_append]
    rw [List.count_append, List.count_append]
    have h1 : (("c(" : String).data).count ',' = 0 := by decide
    have h2 : ((")" : String).data).count ',' = 0 := by decide
    rw [h1, h2, count_pyJoin_comma xs h]
    have : xs.length ≠ 0 := by
      intro h0
      exact hne (List.length_eq_zero.mp h0)
    omega
  · intro xs
    exact ⟨rfl, to_r_list_length xs⟩
  · intro kvs
    exact ⟨rfl, to_r_dict_length kvs⟩

/-- Witness for `c6_value_conversion`: the two-element scalar sequence
`[1, 2]` converts to a vector literal with exactly two comma-separated
parts. -/
theorem c6_value_conversion_witness :
    (splitCh ','
      (to_r (PyVal.list ((["1", "2"] : List String).map PyVal.scalar))).data).length
      = (["1", "2"] : List String).length :=
  c6_value_conversion.1 ["1", "2"] (by decide) (by decide)

end PymolDump
